import Mathlib

/-!
Verification of the YoritsukiTrader intraday dip-buy strategy: a shallow
embedding of the tick aggregation, dip/reversal signal detection, entry
trigger evaluation, order-lifecycle handling, and backtest exit policies
implemented in `Honban/intraday_dip_buy_bot.py` and
`Honban/backtest_logic.py`, together with theorems settling the
specification's claims.  Prices are modelled as rationals and intraday
timestamps as naturals.
-/

namespace YoritsukiTrader

/-- One OHLC bar, labeled by the closing timestamp of its interval. -/
structure Bar where
  ts : Nat
  Open : ℚ
  High : ℚ
  Low : ℚ
  Close : ℚ
  Volume : ℚ
deriving Repr, DecidableEq

/-- Placeholder bar used as the default value for out-of-range list reads. -/
def dbar : Bar := ⟨0, 0, 0, 0, 0, 0⟩

/-- Tick aggregation from `IntradayDipBuyBot._aggregate_ticks`: the swapped-out
pending tick buffer (arrival-ordered `(timestamp, price)` pairs) becomes one
1-minute bar labeled `bar_ts`, or nothing when the buffer is empty.  Open is
the first price, High/Low the maximum/minimum price, Close the last price,
and Volume is fixed to 0 (the tick feed carries no volume). -/
def aggregate_ticks (bar_ts : Nat) (ticks : List (Nat × ℚ)) : Option Bar :=
  match ticks with
  | [] => none
  | t :: rest =>
    let ps := rest.map Prod.snd
    some { ts := bar_ts, Open := t.2, High := ps.foldl max t.2,
           Low := ps.foldl min t.2, Close := ps.getLast?.getD t.2, Volume := 0 }

lemma foldl_max_init_le (l : List ℚ) (a : ℚ) : a ≤ l.foldl max a := by
  induction l generalizing a with
  | nil => exact le_refl a
  | cons x xs ih => exact le_trans (le_max_left a x) (ih (max a x))

lemma foldl_max_mem (l : List ℚ) (a : ℚ) : l.foldl max a = a ∨ l.foldl max a ∈ l := by
  induction l generalizing a with
  | nil => left; rfl
  | cons x xs ih =>
    rcases ih (max a x) with h | h
    · rcases max_choice a x with hm | hm
      · left; rw [List.foldl_cons, h, hm]
      · right; rw [List.foldl_cons, h, hm]; exact List.mem_cons_self x xs
    · right; exact List.mem_cons_of_mem x h

lemma mem_le_foldl_max (l : List ℚ) (a : ℚ) : ∀ x ∈ l, x ≤ l.foldl max a := by
  induction l generalizing a with
  | nil => intro x hx; cases hx
  | cons y ys ih =>
    intro x hx
    rcases List.mem_cons.mp hx with h | h
    · subst h; exact le_trans (le_max_right a x) (foldl_max_init_le ys (max a x))
    · exact ih (max a y) x h

lemma foldl_min_le_init (l : List ℚ) (a : ℚ) : l.foldl min a ≤ a := by
  induction l generalizing a with
  | nil => exact le_refl a
  | cons x xs ih => exact le_trans (ih (min a x)) (min_le_left a x)

lemma foldl_min_mem (l : List ℚ) (a : ℚ) : l.foldl min a = a ∨ l.foldl min a ∈ l := by
  induction l generalizing a with
  | nil => left; rfl
  | cons x xs ih =>
    rcases ih (min a x) with h | h
    · rcases min_choice a x with hm | hm
      · left; rw [List.foldl_cons, h, hm]
      · right; rw [List.foldl_cons, h, hm]; exact List.mem_cons_self x xs
    · right; exact List.mem_cons_of_mem x h

lemma foldl_min_le_mem (l : List ℚ) (a : ℚ) : ∀ x ∈ l, l.foldl min a ≤ x := by
  induction l generalizing a with
  | nil => intro x hx; cases hx
  | cons y ys ih =>
    intro x hx
    rcases List.mem_cons.mp hx with h | h
    · subst h; exact le_trans (foldl_min_le_init ys (min a x)) (min_le_right a x)
    · exact ih (min a y) x h

lemma getLast?_cons_getD {α : Type} (l : List α) (a : α) :
    (a :: l).getLast? = some (l.getLast?.getD a) := by
  induction l generalizing a with
  | nil => rfl
  | cons b bs ih =>
    rw [List.getLast?_cons_cons, ih b]
    rfl

/-- C9: at a minute rollover, an empty pending tick buffer produces no
appended bar, and a non-empty buffer produces a bar with open = first tick
price, close = last tick price, high = the maximum tick price, low = the
minimum tick price (ticks in arrival order), and volume = 0. -/
theorem aggregate_ticks_props (bar_ts : Nat) (ticks : List (Nat × ℚ)) :
    (aggregate_ticks bar_ts ticks = none ↔ ticks = []) ∧
    ∀ b, aggregate_ticks bar_ts ticks = some b →
      (ticks.map Prod.snd).head? = some b.Open ∧
      (ticks.map Prod.snd).getLast? = some b.Close ∧
      b.High ∈ ticks.map Prod.snd ∧ (∀ p ∈ ticks.map Prod.snd, p ≤ b.High) ∧
      b.Low ∈ ticks.map Prod.snd ∧ (∀ p ∈ ticks.map Prod.snd, b.Low ≤ p) ∧
      b.Volume = 0 ∧ b.ts = bar_ts := by
  cases ticks with
  | nil =>
    constructor
    · simp [aggregate_ticks]
    · intro b hb
      simp [aggregate_ticks] at hb
  | cons t rest =>
    constructor
    · simp [aggregate_ticks]
    · intro b hb
      simp only [aggregate_ticks, Option.some.injEq] at hb
      subst hb
      refine ⟨rfl, ?_, ?_, ?_, ?_, ?_, rfl, rfl⟩
      · rw [List.map_cons, getLast?_cons_getD]
      · rcases foldl_max_mem (rest.map Prod.snd) t.2 with h | h
        · rw [List.map_cons, h]; exact List.mem_cons_self _ _
        · rw [List.map_cons]; exact List.mem_cons_of_mem _ h
      · intro p hp
        rw [List.map_cons] at hp
        rcases List.mem_cons.mp hp with h | h
        · subst h; exact foldl_max_init_le (rest.map Prod.snd) t.2
        · exact mem_le_foldl_max (rest.map Prod.snd) t.2 p h
      · rcases foldl_min_mem (rest.map Prod.snd) t.2 with h | h
        · rw [List.map_cons, h]; exact List.mem_cons_self _ _
        · rw [List.map_cons]; exact List.mem_cons_of_mem _ h
      · intro p hp
        rw [List.map_cons] at hp
        rcases List.mem_cons.mp hp with h | h
        · subst h; exact foldl_min_le_init (rest.map Prod.snd) t.2
        · exact foldl_min_le_mem (rest.map Prod.snd) t.2 p h

/-- Witness for C9: the concrete tick buffer `[(1, 5), (2, 9), (3, 4)]`
aggregates to the bar `⟨7, 5, 9, 4, 4, 0⟩`, whose fields satisfy the stated
open/high/low/close/volume properties. -/
theorem aggregate_ticks_props_witness :
    aggregate_ticks 7 [((1 : Nat), (5 : ℚ)), (2, 9), (3, 4)] =
      some ⟨7, 5, 9, 4, 4, 0⟩ ∧
    (([((1 : Nat), (5 : ℚ)), (2, 9), (3, 4)].map Prod.snd).head? = some 5 ∧
     ([((1 : Nat), (5 : ℚ)), (2, 9), (3, 4)].map Prod.snd).getLast? = some 4 ∧
     (9 : ℚ) ∈ [((1 : Nat), (5 : ℚ)), (2, 9), (3, 4)].map Prod.snd ∧
     (∀ p ∈ [((1 : Nat), (5 : ℚ)), (2, 9), (3, 4)].map Prod.snd, p ≤ (9 : ℚ)) ∧
     (4 : ℚ) ∈ [((1 : Nat), (5 : ℚ)), (2, 9), (3, 4)].map Prod.snd ∧
     (∀ p ∈ [((1 : Nat), (5 : ℚ)), (2, 9), (3, 4)].map Prod.snd, (4 : ℚ) ≤ p) ∧
     (0 : ℚ) = 0 ∧ 7 = 7) :=
  ⟨by decide,
   (aggregate_ticks_props 7 [((1 : Nat), (5 : ℚ)), (2, 9), (3, 4)]).2
     ⟨7, 5, 9, 4, 4, 0⟩ (by decide)⟩

/-- Per-session dip/reversal detector state, mirroring the bot's fields
`dip_flag_on`, `dip_start_timestamp`, `lowest_price_value`,
`lowest_price_bar_index` and `reversal_point`.  `none` stands for the
sentinels used in the source: an unset timestamp, `float('inf')` for the
lowest price, index `-1`, and an unset reversal point. -/
structure DipState where
  dip_flag_on : Bool
  dip_start_timestamp : Option Nat
  lowest_price_value : Option ℚ
  lowest_price_bar_index : Option Nat
  reversal_point : Option ℚ
deriving Repr, DecidableEq

/-- The detector state at bot start-up: flag off, nothing tracked. -/
def init_dip_state : DipState := ⟨false, none, none, none, none⟩

/-- The three-bar strictly-descending-close dip condition checked at index
`j` of the resampled setup series (`_update_setup_signal`, step 1). -/
def dip_cond (bars : List Bar) (j : Nat) : Prop :=
  2 ≤ j ∧ (bars.getD j dbar).Close < (bars.getD (j - 1) dbar).Close ∧
    (bars.getD (j - 1) dbar).Close < (bars.getD (j - 2) dbar).Close

instance (bars : List Bar) (j : Nat) : Decidable (dip_cond bars j) := by
  unfold dip_cond; exact inferInstance

/-- Step 1 of `_update_setup_signal` at index `j`: when the dip condition
holds and the flag is off, turn the flag on, record the dip start timestamp
from bar `j`, and reset the lowest-low tracking. -/
def dip_check (bars : List Bar) (j : Nat) (st : DipState) : DipState :=
  if dip_cond bars j then
    if st.dip_flag_on = false then
      { st with dip_flag_on := true,
                dip_start_timestamp := some (bars.getD j dbar).ts,
                lowest_price_value := none,
                lowest_price_bar_index := none }
    else st
  else st

/-- Step 2 of `_update_setup_signal` at index `j`: while the flag is on and
bar `j` is at or after the dip start, track the minimum low and its index. -/
def low_track (bars : List Bar) (j : Nat) (st : DipState) : DipState :=
  if st.dip_flag_on then
    match st.dip_start_timestamp with
    | some t0 =>
      if t0 ≤ (bars.getD j dbar).ts then
        match st.lowest_price_value with
        | none =>
          { st with lowest_price_value := some (bars.getD j dbar).Low,
                    lowest_price_bar_index := some j }
        | some v =>
          if (bars.getD j dbar).Low < v then
            { st with lowest_price_value := some (bars.getD j dbar).Low,
                      lowest_price_bar_index := some j }
          else st
      else st
    | none => st
  else st

/-- Step 3 of `_update_setup_signal` at index `j`: once a lowest-low index
`L` exists with `j ≥ L + 2` and `L ≥ 2`, the reversal point candidate is the
High of the bar at `L - 2`, overwriting the stored value when it differs. -/
def rev_check (bars : List Bar) (j : Nat) (st : DipState) : DipState :=
  if st.dip_flag_on then
    match st.lowest_price_bar_index with
    | some L =>
      if L + 2 ≤ j then
        if 2 ≤ L then
          if st.reversal_point ≠ some (bars.getD (L - 2) dbar).High then
            { st with reversal_point := some (bars.getD (L - 2) dbar).High }
          else st
        else st
      else st
    | none => st
  else st

/-- One loop iteration of `_update_setup_signal` at index `j`. -/
def setup_step (bars : List Bar) (st : DipState) (j : Nat) : DipState :=
  rev_check bars j (low_track bars j (dip_check bars j st))

/-- The detector state after processing setup bars `0 .. n-1` starting from
the initial state, as `_update_setup_signal` does on its scan. -/
def run_setup_upto (bars : List Bar) (n : Nat) : DipState :=
  (List.range n).foldl (setup_step bars) init_dip_state

lemma rev_check_flag (bars : List Bar) (j : Nat) (st : DipState) :
    (rev_check bars j st).dip_flag_on = st.dip_flag_on := by
  unfold rev_check
  split
  · split
    · split
      · split
        · split <;> rfl
        · rfl
      · rfl
    · rfl
  · rfl

lemma rev_check_index (bars : List Bar) (j : Nat) (st : DipState) :
    (rev_check bars j st).lowest_price_bar_index = st.lowest_price_bar_index := by
  unfold rev_check
  split
  · split
    · split
      · split
        · split <;> rfl
        · rfl
      · rfl
    · rfl
  · rfl

/-- C3: after the detector processes the setup bar at index `j`, if the dip
flag is on and the tracked lowest-low index is `L` with `L ≥ 2` and
`j ≥ L + 2`, then the stored reversal point equals the High of the setup bar
at index `L - 2`; in particular any stored value that differed from this
recomputed candidate has been overwritten. -/
theorem reversal_point_tracks_lowest (bars : List Bar) (st : DipState) (j L : Nat)
    (hflag : (setup_step bars st j).dip_flag_on = true)
    (hL : (setup_step bars st j).lowest_price_bar_index = some L)
    (hL2 : 2 ≤ L) (hj : L + 2 ≤ j) :
    (setup_step bars st j).reversal_point = some (bars.getD (L - 2) dbar).High := by
  unfold setup_step at hflag hL ⊢
  set st2 := low_track bars j (dip_check bars j st) with hst2
  rw [rev_check_flag] at hflag
  rw [rev_check_index] at hL
  unfold rev_check
  rw [hflag, hL]
  simp only [if_true]
  rw [if_pos hj, if_pos hL2]
  split
  · rfl
  · next h => simpa using h

/-- Witness for C3: on a concrete seven-bar setup series with the lowest low
tracked at index 4, processing index 6 stores the High of the bar at index 2
as the reversal point. -/
theorem reversal_point_tracks_lowest_witness :
    (setup_step
        [⟨1, 100, 101, 99, 100, 0⟩, ⟨2, 100, 102, 98, 99, 0⟩,
         ⟨3, 99, 108, 97, 98, 0⟩, ⟨4, 98, 99, 94, 95, 0⟩,
         ⟨5, 95, 97, 90, 93, 0⟩, ⟨6, 93, 98, 92, 94, 0⟩,
         ⟨7, 94, 99, 95, 96, 0⟩]
        ⟨true, some 3, some 90, some 4, none⟩ 6).dip_flag_on = true ∧
    (setup_step
        [⟨1, 100, 101, 99, 100, 0⟩, ⟨2, 100, 102, 98, 99, 0⟩,
         ⟨3, 99, 108, 97, 98, 0⟩, ⟨4, 98, 99, 94, 95, 0⟩,
         ⟨5, 95, 97, 90, 93, 0⟩, ⟨6, 93, 98, 92, 94, 0⟩,
         ⟨7, 94, 99, 95, 96, 0⟩]
        ⟨true, some 3, some 90, some 4, none⟩ 6).lowest_price_bar_index = some 4 ∧
    (setup_step
        [⟨1, 100, 101, 99, 100, 0⟩, ⟨2, 100, 102, 98, 99, 0⟩,
         ⟨3, 99, 108, 97, 98, 0⟩, ⟨4, 98, 99, 94, 95, 0⟩,
         ⟨5, 95, 97, 90, 93, 0⟩, ⟨6, 93, 98, 92, 94, 0⟩,
         ⟨7, 94, 99, 95, 96, 0⟩]
        ⟨true, some 3, some 90, some 4, none⟩ 6).reversal_point = some 108 :=
  ⟨by decide, by decide,
   reversal_point_tracks_lowest
     [⟨1, 100, 101, 99, 100, 0⟩, ⟨2, 100, 102, 98, 99, 0⟩,
      ⟨3, 99, 108, 97, 98, 0⟩, ⟨4, 98, 99, 94, 95, 0⟩,
      ⟨5, 95, 97, 90, 93, 0⟩, ⟨6, 93, 98, 92, 94, 0⟩,
      ⟨7, 94, 99, 95, 96, 0⟩]
     ⟨true, some 3, some 90, some 4, none⟩ 6 4
     (by decide) (by decide) (by decide) (by decide)⟩

lemma low_track_flag (bars : List Bar) (j : Nat) (st : DipState) :
    (low_track bars j st).dip_flag_on = st.dip_flag_on := by
  unfold low_track
  split
  · split
    · split
      · split
        · rfl
        · split <;> rfl
      · rfl
    · rfl
  · rfl

lemma run_setup_stays_init (bars : List Bar) :
    ∀ n, (∀ i, i < n → ¬ dip_cond bars i) → run_setup_upto bars n = init_dip_state := by
  intro n
  induction n with
  | zero => intro _; rfl
  | succ m ih =>
    intro h
    unfold run_setup_upto
    rw [List.range_succ, List.foldl_append]
    have hm : (List.range m).foldl (setup_step bars) init_dip_state = init_dip_state := by
      have := ih (fun i hi => h i (Nat.lt_succ_of_lt hi))
      unfold run_setup_upto at this
      exact this
    rw [hm]
    show setup_step bars init_dip_state m = init_dip_state
    have hnd := h m (Nat.lt_succ_self m)
    unfold setup_step dip_check low_track rev_check
    simp [hnd, init_dip_state]

/-- C4: for a setup-bar sequence whose first index satisfying the
three-strictly-decreasing-closes condition is `js`, the dip flag is off after
every prefix up to and including index `js - 1` (so it does not turn on
earlier), and processing bar `js` turns the flag on while recording the dip
start timestamp from bar `js` and resetting the lowest-low tracking to the
`+∞` / index `-1` sentinels; after the full step at `js` the flag is on. -/
theorem dip_flag_first (bars : List Bar) (js : Nat)
    (hfirst : ∀ i, i < js → ¬ dip_cond bars i) (hjs : dip_cond bars js) :
    (∀ i, i ≤ js → (run_setup_upto bars i).dip_flag_on = false) ∧
    dip_check bars js (run_setup_upto bars js) =
      ⟨true, some (bars.getD js dbar).ts, none, none, none⟩ ∧
    (run_setup_upto bars (js + 1)).dip_flag_on = true := by
  have hinit : run_setup_upto bars js = init_dip_state :=
    run_setup_stays_init bars js hfirst
  refine ⟨?_, ?_, ?_⟩
  · intro i hi
    rw [run_setup_stays_init bars i (fun k hk => hfirst k (lt_of_lt_of_le hk hi))]
    rfl
  · rw [hinit]
    unfold dip_check
    rw [if_pos hjs, if_pos (show init_dip_state.dip_flag_on = false from rfl)]
    rfl
  · unfold run_setup_upto
    rw [List.range_succ, List.foldl_append]
    have hm : (List.range js).foldl (setup_step bars) init_dip_state = init_dip_state := by
      unfold run_setup_upto at hinit
      exact hinit
    rw [hm]
    show (setup_step bars init_dip_state js).dip_flag_on = true
    unfold setup_step
    rw [rev_check_flag, low_track_flag]
    unfold dip_check
    rw [if_pos hjs, if_pos (show init_dip_state.dip_flag_on = false from rfl)]

/-- Witness for C4: on bars with closes `[100, 99, 98]`, no index before 2
satisfies the dip condition, index 2 does, and the flag first turns on there
with the dip start timestamp of bar 2 and freshly reset lowest-low tracking. -/
theorem dip_flag_first_witness :
    (∀ i, i < 2 → ¬ dip_cond
        [⟨1, 100, 101, 99, 100, 0⟩, ⟨2, 99, 100, 98, 99, 0⟩,
         ⟨3, 98, 99, 97, 98, 0⟩] i) ∧
    dip_cond
        [⟨1, 100, 101, 99, 100, 0⟩, ⟨2, 99, 100, 98, 99, 0⟩,
         ⟨3, 98, 99, 97, 98, 0⟩] 2 ∧
    ((∀ i, i ≤ 2 → (run_setup_upto
        [⟨1, 100, 101, 99, 100, 0⟩, ⟨2, 99, 100, 98, 99, 0⟩,
         ⟨3, 98, 99, 97, 98, 0⟩] i).dip_flag_on = false) ∧
     dip_check
        [⟨1, 100, 101, 99, 100, 0⟩, ⟨2, 99, 100, 98, 99, 0⟩,
         ⟨3, 98, 99, 97, 98, 0⟩] 2
        (run_setup_upto
          [⟨1, 100, 101, 99, 100, 0⟩, ⟨2, 99, 100, 98, 99, 0⟩,
           ⟨3, 98, 99, 97, 98, 0⟩] 2) =
        ⟨true, some 3, none, none, none⟩ ∧
     (run_setup_upto
        [⟨1, 100, 101, 99, 100, 0⟩, ⟨2, 99, 100, 98, 99, 0⟩,
         ⟨3, 98, 99, 97, 98, 0⟩] 3).dip_flag_on = true) :=
  ⟨by decide, by decide,
   dip_flag_first
     [⟨1, 100, 101, 99, 100, 0⟩, ⟨2, 99, 100, 98, 99, 0⟩,
      ⟨3, 98, 99, 97, 98, 0⟩] 2 (by decide) (by decide)⟩

/-- The bot's lifecycle states (the string values of `self.state`). -/
inductive BotSt where
  | IDLE
  | WAITING_FOR_ENTRY
  | POSITION_OPEN
  | WAITING_FOR_CANCEL
  | CLOSING
deriving Repr, DecidableEq

/-- Entry-trigger evaluation from the bot's `run` loop: only while the state
is IDLE and a reversal point is set, resample to the trigger timeframe and
compare the latest bar's close against the reversal point; an entry signal
carrying that close is emitted exactly when the close is strictly greater. -/
def check_entry_trigger (state : BotSt) (reversal_point : Option ℚ)
    (df_trigger : List Bar) : Option ℚ :=
  if state = BotSt.IDLE then
    match reversal_point with
    | some rp =>
      match df_trigger.getLast? with
      | some b => if rp < b.Close then some b.Close else none
      | none => none
    | none => none
  else none

/-- C5: with BotState IDLE and a set reversal point, an entry signal is
emitted if and only if the latest trigger-timeframe bar's close is strictly
greater than the reversal point; the signal carries that close, and an equal
or lower close emits nothing. -/
theorem entry_trigger_iff (rp : ℚ) (bars : List Bar) (b : Bar)
    (hlast : bars.getLast? = some b) :
    check_entry_trigger BotSt.IDLE (some rp) bars =
      (if rp < b.Close then some b.Close else none) ∧
    ((check_entry_trigger BotSt.IDLE (some rp) bars).isSome ↔ rp < b.Close) := by
  have h1 : check_entry_trigger BotSt.IDLE (some rp) bars =
      (if rp < b.Close then some b.Close else none) := by
    unfold check_entry_trigger
    rw [if_pos rfl, hlast]
  refine ⟨h1, ?_⟩
  rw [h1]
  constructor
  · intro hs
    by_contra hlt
    rw [if_neg hlt] at hs
    exact Bool.noConfusion hs
  · intro hlt
    rw [if_pos hlt]
    rfl

/-- Witness for C5: with reversal point 104, a latest trigger bar closing at
105 emits the signal `some 105`, and one closing at 104 would not (strictness
shown through the if-characterisation). -/
theorem entry_trigger_iff_witness :
    [(⟨9, 100, 106, 99, 105, 0⟩ : Bar)].getLast? = some ⟨9, 100, 106, 99, 105, 0⟩ ∧
    (check_entry_trigger BotSt.IDLE (some 104) [⟨9, 100, 106, 99, 105, 0⟩] =
      (if (104 : ℚ) < 105 then some (105 : ℚ) else none) ∧
    ((check_entry_trigger BotSt.IDLE (some 104) [⟨9, 100, 106, 99, 105, 0⟩]).isSome ↔
      (104 : ℚ) < 105)) :=
  ⟨by decide,
   entry_trigger_iff 104 [⟨9, 100, 106, 99, 105, 0⟩] ⟨9, 100, 106, 99, 105, 0⟩ (by decide)⟩

/-- Tags for the operator notifications the bot sends in the order-lifecycle
paths modelled here. -/
inductive NotifTag where
  | entry_fill
  | emergency_sl_fail
  | emergency_order_lost
deriving Repr, DecidableEq

/-- One execution detail record of a broker-reported order. -/
structure OrderDetail where
  RecType : Nat
  Price : ℚ
deriving Repr, DecidableEq

/-- One broker-reported order as returned by the orders-list query. -/
structure BrokerOrder where
  ID : Nat
  State : Nat
  Details : List OrderDetail
deriving Repr, DecidableEq

/-- Execution-price extraction used in `_handle_state_waiting_for_entry`:
the price of the first detail record with `RecType = 8`, else 0. -/
def execution_price_of (o : BrokerOrder) : ℚ :=
  match o.Details.find? (fun d => d.RecType == 8) with
  | some d => d.Price
  | none => 0

/-- The bot control fields touched by the WAITING_FOR_ENTRY handler, plus the
stream of notifications it has emitted. -/
structure BotCtl where
  state : BotSt
  is_bot_running : Bool
  entry_order_id : Option Nat
  stop_loss_order_id : Option Nat
  entry_price : ℚ
  stop_loss_price : ℚ
  take_profit_price : ℚ
  entry_order_check_retries : Nat
  notifications : List NotifTag
deriving Repr, DecidableEq

/-- The configured stop-loss / take-profit percentages. -/
structure BotCfg where
  stop_loss_percent : ℚ
  take_profit_percent : ℚ
deriving Repr, DecidableEq

/-- The broker responses consumed during one call of the handler: the result
of `get_orders_list`, and the result of `send_stop_sell_order` if placed. -/
structure BrokerEnv where
  orders_ok : Bool
  orders : List BrokerOrder
  sl_order_ok : Bool
  sl_order_id : Nat
deriving Repr, DecidableEq

/-- The bounded-retry block at the end of `_handle_state_waiting_for_entry`:
below 10 retries, count one more and try again; once exhausted, notify the
operator and transition back to IDLE. -/
def entry_retry_block (st : BotCtl) : BotCtl :=
  if st.entry_order_check_retries < 10 then
    { st with entry_order_check_retries := st.entry_order_check_retries + 1 }
  else
    { st with state := BotSt.IDLE,
              notifications := st.notifications ++ [NotifTag.emergency_order_lost] }

/-- One call of `IntradayDipBuyBot._handle_state_waiting_for_entry`,
reconciling the submitted entry order against the broker's order list. -/
def handle_state_waiting_for_entry (cfg : BotCfg) (env : BrokerEnv)
    (st : BotCtl) : BotCtl :=
  if env.orders_ok = false then
    { st with is_bot_running := false }
  else
    match env.orders.find? (fun o => st.entry_order_id == some o.ID) with
    | some fo =>
      if fo.State = 5 ∨ fo.State = 6 then
        if 0 < execution_price_of fo then
          -- Python's round applies banker's rounding at exact .5 ties; the
          -- claims below do not depend on tie behaviour.
          let slp : ℚ :=
            (round (execution_price_of fo * (1 - cfg.stop_loss_percent / 100)) : ℤ)
          let tpp : ℚ :=
            (round (execution_price_of fo * (1 + cfg.take_profit_percent / 100)) : ℤ)
          if env.sl_order_ok then
            { st with entry_price := execution_price_of fo,
                      stop_loss_price := slp, take_profit_price := tpp,
                      stop_loss_order_id := some env.sl_order_id,
                      state := BotSt.POSITION_OPEN,
                      notifications := st.notifications ++ [NotifTag.entry_fill] }
          else
            { st with entry_price := execution_price_of fo,
                      stop_loss_price := slp, take_profit_price := tpp,
                      is_bot_running := false,
                      notifications := st.notifications ++
                        [NotifTag.entry_fill, NotifTag.emergency_sl_fail] }
        else entry_retry_block st
      else if fo.State = 3 ∨ fo.State = 5 then
        { st with state := BotSt.IDLE, entry_order_id := none }
      else entry_retry_block st
    | none => entry_retry_block st

/-- C2: in WAITING_FOR_ENTRY, when the broker list query succeeds, the entry
order is found in a terminal-filled state with a positive executed price, and
the stop-loss placement fails, the handler stops the bot (`is_bot_running`
becomes false), leaves the state at WAITING_FOR_ENTRY (POSITION_OPEN is never
reached), and emits the emergency notification. -/
theorem stop_loss_failure_is_fatal (cfg : BotCfg) (env : BrokerEnv) (st : BotCtl)
    (fo : BrokerOrder)
    (hst : st.state = BotSt.WAITING_FOR_ENTRY)
    (hok : env.orders_ok = true)
    (hfound : env.orders.find? (fun o => st.entry_order_id == some o.ID) = some fo)
    (hterm : fo.State = 5 ∨ fo.State = 6)
    (hep : 0 < execution_price_of fo)
    (hsl : env.sl_order_ok = false) :
    (handle_state_waiting_for_entry cfg env st).is_bot_running = false ∧
    (handle_state_waiting_for_entry cfg env st).state = BotSt.WAITING_FOR_ENTRY ∧
    NotifTag.emergency_sl_fail ∈
      (handle_state_waiting_for_entry cfg env st).notifications := by
  unfold handle_state_waiting_for_entry
  rw [if_neg (by rw [hok]; exact fun h => Bool.noConfusion h)]
  rw [hfound]
  simp only [if_pos hterm, if_pos hep]
  rw [hsl]
  simp only [Bool.false_eq_true, if_false]
  simp [hst]

/-- Witness for C2: a concrete filled order (state 6, executed price 100)
with a failing stop-loss placement makes the handler stop the bot in
WAITING_FOR_ENTRY with the emergency notification. -/
theorem stop_loss_failure_is_fatal_witness :
    (⟨BotSt.WAITING_FOR_ENTRY, true, some 1, none, 0, 0, 0, 0, []⟩ : BotCtl).state =
      BotSt.WAITING_FOR_ENTRY ∧
    (⟨true, [⟨1, 6, [⟨8, 100⟩]⟩], false, 0⟩ : BrokerEnv).orders_ok = true ∧
    ([(⟨1, 6, [⟨8, 100⟩]⟩ : BrokerOrder)].find?
        (fun o => some 1 == some o.ID) = some ⟨1, 6, [⟨8, 100⟩]⟩) ∧
    ((⟨1, 6, [⟨8, 100⟩]⟩ : BrokerOrder).State = 5 ∨
      (⟨1, 6, [⟨8, 100⟩]⟩ : BrokerOrder).State = 6) ∧
    0 < execution_price_of ⟨1, 6, [⟨8, 100⟩]⟩ ∧
    ((handle_state_waiting_for_entry ⟨3, 4⟩ ⟨true, [⟨1, 6, [⟨8, 100⟩]⟩], false, 0⟩
        ⟨BotSt.WAITING_FOR_ENTRY, true, some 1, none, 0, 0, 0, 0, []⟩).is_bot_running = false ∧
     (handle_state_waiting_for_entry ⟨3, 4⟩ ⟨true, [⟨1, 6, [⟨8, 100⟩]⟩], false, 0⟩
        ⟨BotSt.WAITING_FOR_ENTRY, true, some 1, none, 0, 0, 0, 0, []⟩).state =
        BotSt.WAITING_FOR_ENTRY ∧
     NotifTag.emergency_sl_fail ∈
       (handle_state_waiting_for_entry ⟨3, 4⟩ ⟨true, [⟨1, 6, [⟨8, 100⟩]⟩], false, 0⟩
          ⟨BotSt.WAITING_FOR_ENTRY, true, some 1, none, 0, 0, 0, 0, []⟩).notifications) :=
  ⟨rfl, rfl, by decide, by decide, by decide,
   stop_loss_failure_is_fatal ⟨3, 4⟩ ⟨true, [⟨1, 6, [⟨8, 100⟩]⟩], false, 0⟩
     ⟨BotSt.WAITING_FOR_ENTRY, true, some 1, none, 0, 0, 0, 0, []⟩
     ⟨1, 6, [⟨8, 100⟩]⟩ rfl rfl (by decide) (by decide) (by decide) rfl⟩

/-- Counterexample to C1 as stated: with the broker list queried successfully,
the entry order id 1 absent from the (empty) list, and the retry counter
already at 10, the handler leaves `is_bot_running` true and returns the state
to IDLE — the bot does not stop itself. -/
theorem entry_order_lost_not_fatal_cex :
    (handle_state_waiting_for_entry ⟨3, 4⟩ ⟨true, [], true, 0⟩
        ⟨BotSt.WAITING_FOR_ENTRY, true, some 1, none, 0, 0, 0, 10, []⟩).is_bot_running
      = true ∧
    (handle_state_waiting_for_entry ⟨3, 4⟩ ⟨true, [], true, 0⟩
        ⟨BotSt.WAITING_FOR_ENTRY, true, some 1, none, 0, 0, 0, 10, []⟩).state
      = BotSt.IDLE := by
  decide

/-- C1 (amended): in WAITING_FOR_ENTRY, when the submitted entry order id is
absent from the broker's order list after the 10 bounded retries are
exhausted, the handler emits the operator notification and transitions back
to IDLE, leaving `is_bot_running` unchanged (the bot keeps running). -/
theorem entry_order_lost_goes_idle (cfg : BotCfg) (env : BrokerEnv) (st : BotCtl)
    (hok : env.orders_ok = true)
    (habsent : env.orders.find? (fun o => st.entry_order_id == some o.ID) = none)
    (hret : 10 ≤ st.entry_order_check_retries) :
    (handle_state_waiting_for_entry cfg env st).state = BotSt.IDLE ∧
    (handle_state_waiting_for_entry cfg env st).is_bot_running = st.is_bot_running ∧
    NotifTag.emergency_order_lost ∈
      (handle_state_waiting_for_entry cfg env st).notifications := by
  unfold handle_state_waiting_for_entry
  rw [if_neg (by rw [hok]; exact fun h => Bool.noConfusion h)]
  rw [habsent]
  unfold entry_retry_block
  rw [if_neg (by omega)]
  refine ⟨rfl, rfl, ?_⟩
  simp

/-- Witness for C1 (amended): concretely, with order id 1 absent from the
orders list and 10 retries spent, the handler lands in IDLE with the bot
still running and the operator notified. -/
theorem entry_order_lost_goes_idle_witness :
    (⟨true, [⟨2, 6, []⟩], true, 0⟩ : BrokerEnv).orders_ok = true ∧
    ([(⟨2, 6, []⟩ : BrokerOrder)].find? (fun o => some 1 == some o.ID) = none) ∧
    10 ≤ (⟨BotSt.WAITING_FOR_ENTRY, true, some 1, none, 0, 0, 0, 10, []⟩ :
      BotCtl).entry_order_check_retries ∧
    ((handle_state_waiting_for_entry ⟨3, 4⟩ ⟨true, [⟨2, 6, []⟩], true, 0⟩
        ⟨BotSt.WAITING_FOR_ENTRY, true, some 1, none, 0, 0, 0, 10, []⟩).state = BotSt.IDLE ∧
     (handle_state_waiting_for_entry ⟨3, 4⟩ ⟨true, [⟨2, 6, []⟩], true, 0⟩
        ⟨BotSt.WAITING_FOR_ENTRY, true, some 1, none, 0, 0, 0, 10, []⟩).is_bot_running =
       (⟨BotSt.WAITING_FOR_ENTRY, true, some 1, none, 0, 0, 0, 10, []⟩ :
         BotCtl).is_bot_running ∧
     NotifTag.emergency_order_lost ∈
       (handle_state_waiting_for_entry ⟨3, 4⟩ ⟨true, [⟨2, 6, []⟩], true, 0⟩
          ⟨BotSt.WAITING_FOR_ENTRY, true, some 1, none, 0, 0, 0, 10, []⟩).notifications) :=
  ⟨rfl, by decide, by decide,
   entry_order_lost_goes_idle ⟨3, 4⟩ ⟨true, [⟨2, 6, []⟩], true, 0⟩
     ⟨BotSt.WAITING_FOR_ENTRY, true, some 1, none, 0, 0, 0, 10, []⟩
     rfl (by decide) (by decide)⟩

/-- The per-bar scan of the fixed stop-loss/take-profit exit policy in
`run_backtest`: the stop-loss comparison is made first on each bar, then the
take-profit comparison; the loop stops at the first hit. -/
def fixed_exit_loop (sl tp : ℚ) : List Bar → Option ℚ
  | [] => none
  | b :: rest =>
    if b.Low ≤ sl then some sl
    else if tp ≤ b.High then some tp
    else fixed_exit_loop sl tp rest

/-- The fixed stop-loss/take-profit exit price of `run_backtest` over the
post-entry bars: the scan's hit if any, else the last available close. -/
def fixed_sl_tp_exit (sl tp : ℚ) (bars : List Bar) : Option ℚ :=
  match fixed_exit_loop sl tp bars with
  | some x => some x
  | none => bars.getLast?.map Bar.Close

/-- Modelled from the spec's wording of the fixed SL/TP policy, for
comparison with the code's scan: find the first bar whose low reaches the
stop or whose high reaches the target, exit at the stop if that bar's low
reached it (stop-loss priority on a same-bar double touch) and at the target
otherwise; with no such bar, exit at the last available close. -/
def fixed_sl_tp_exit_spec (sl tp : ℚ) (bars : List Bar) : Option ℚ :=
  match bars.find? (fun b => decide (b.Low ≤ sl) || decide (tp ≤ b.High)) with
  | some b => some (if b.Low ≤ sl then sl else tp)
  | none => bars.getLast?.map Bar.Close

lemma fixed_exit_loop_eq_find (sl tp : ℚ) (bars : List Bar) :
    fixed_exit_loop sl tp bars =
      (bars.find? (fun b => decide (b.Low ≤ sl) || decide (tp ≤ b.High))).map
        (fun b => if b.Low ≤ sl then sl else tp) := by
  induction bars with
  | nil => rfl
  | cons b rest ih =>
    by_cases hsl : b.Low ≤ sl
    · rw [List.find?_cons_of_pos _ (by simp [hsl])]
      simp [fixed_exit_loop, hsl]
    · by_cases htp : tp ≤ b.High
      · rw [List.find?_cons_of_pos _ (by simp [htp])]
        simp [fixed_exit_loop, hsl, htp]
      · rw [List.find?_cons_of_neg _ (by simp [hsl, htp])]
        rw [← ih]
        simp [fixed_exit_loop, hsl, htp]

/-- C7: the fixed SL/TP policy of the backtest exits at the stop-loss price
on the first bar whose low reaches or breaches it, else at the take-profit
price on the first bar whose high reaches it, with the stop-loss check taking
priority when both conditions hold on the same bar, and at the last available
close when neither triggers before the data ends. -/
theorem fixed_exit_matches_spec (sl tp : ℚ) (bars : List Bar) :
    fixed_sl_tp_exit sl tp bars = fixed_sl_tp_exit_spec sl tp bars := by
  unfold fixed_sl_tp_exit fixed_sl_tp_exit_spec
  rw [fixed_exit_loop_eq_find]
  cases bars.find? (fun b => decide (b.Low ≤ sl) || decide (tp ≤ b.High)) with
  | none => rfl
  | some b => rfl

/-- The trailing-stop raise applied after each surviving bar in
`run_backtest`: the stop is replaced by `bar.High * f` only when that is
strictly higher (`f` is the retained fraction `1 - trailPct/100`). -/
def trail_update (f s : ℚ) (b : Bar) : ℚ :=
  if s < b.High * f then b.High * f else s

/-- The per-bar scan of the trailing-stop exit policy in `run_backtest`: each
bar is first checked against the stop currently in effect (exiting at that
stop when the bar's low touches or breaches it), and only then may raise it. -/
def trailing_loop (f : ℚ) : List Bar → ℚ → Option ℚ
  | [], _ => none
  | b :: rest, s =>
    if b.Low ≤ s then some s
    else trailing_loop f rest (trail_update f s b)

/-- The trailing-stop exit price of `run_backtest` over the post-entry bars,
starting from the initial stop `entry * (1 - trailPct/100)`: the scan's hit
if any, else the last available close. -/
def trailing_exit (entry trail_pct : ℚ) (bars : List Bar) : Option ℚ :=
  match trailing_loop (1 - trail_pct / 100) bars (entry * (1 - trail_pct / 100)) with
  | some x => some x
  | none => bars.getLast?.map Bar.Close

/-- The sequence of stop levels in effect while scanning `bars`, starting
from `s0`: entry `i` is the stop against which bar `i` is checked. -/
def trail_stops (f s0 : ℚ) (bars : List Bar) : List ℚ :=
  bars.scanl (trail_update f) s0

lemma trail_update_ge (f s : ℚ) (b : Bar) : s ≤ trail_update f s b := by
  unfold trail_update
  split
  · next h => exact le_of_lt h
  · exact le_refl s

lemma trail_stops_chain (f : ℚ) (bars : List Bar) :
    ∀ s0, List.Chain' (· ≤ ·) (trail_stops f s0 bars) := by
  induction bars with
  | nil => intro s0; exact List.chain'_singleton s0
  | cons b rest ih =>
    intro s0
    unfold trail_stops at ih ⊢
    rw [List.scanl_cons]
    cases rest with
    | nil =>
      rw [List.scanl_nil]
      exact List.chain'_pair.mpr (trail_update_ge f s0 b)
    | cons c cs =>
      rw [List.scanl_cons]
      refine List.chain'_cons.mpr ⟨trail_update_ge f s0 b, ?_⟩
      have := ih (trail_update f s0 b)
      rw [List.scanl_cons] at this
      exact this

lemma trailing_loop_eq_find (f : ℚ) (bars : List Bar) :
    ∀ s0, trailing_loop f bars s0 =
      ((bars.zip (trail_stops f s0 bars)).find? (fun p => decide (p.1.Low ≤ p.2))).map
        Prod.snd := by
  induction bars with
  | nil => intro s0; rfl
  | cons b rest ih =>
    intro s0
    unfold trail_stops
    rw [List.scanl_cons, List.singleton_append, List.zip_cons_cons]
    by_cases h : b.Low ≤ s0
    · rw [List.find?_cons_of_pos _ (by simpa using h)]
      simp [trailing_loop, h]
    · rw [List.find?_cons_of_neg _ (by simpa using h)]
      rw [show (trailing_loop f (b :: rest) s0 =
        trailing_loop f rest (trail_update f s0 b)) from by simp [trailing_loop, h]]
      exact ih (trail_update f s0 b)

/-- C8: for the trailing-stop policy of the backtest, the stop sequence
starts at `entry * (1 - trailPct/100)` and is monotonically non-decreasing
across the trade, and the exit price is the stop in effect at the first bar
whose low touches or breaches it, falling back to the last available close
when no bar does. -/
theorem trailing_exit_props (entry trail_pct : ℚ) (bars : List Bar) :
    (trail_stops (1 - trail_pct / 100) (entry * (1 - trail_pct / 100)) bars).head? =
      some (entry * (1 - trail_pct / 100)) ∧
    List.Chain' (· ≤ ·)
      (trail_stops (1 - trail_pct / 100) (entry * (1 - trail_pct / 100)) bars) ∧
    trailing_exit entry trail_pct bars =
      (match ((bars.zip
          (trail_stops (1 - trail_pct / 100) (entry * (1 - trail_pct / 100)) bars)).find?
            (fun p => decide (p.1.Low ≤ p.2))).map Prod.snd with
       | some x => some x
       | none => bars.getLast?.map Bar.Close) := by
  refine ⟨?_, trail_stops_chain _ bars _, ?_⟩
  · unfold trail_stops
    cases bars with
    | nil => rfl
    | cons b rest => rw [List.scanl_cons]; rfl
  · unfold trailing_exit
    rw [trailing_loop_eq_find]

/-- The trigger-timeframe entry search of `run_backtest`: scan the trigger
bars in order, stop once a bar closes after the search end time, and on the
first bar strictly after the setup-confirmation time whose close strictly
exceeds the reversal point, record the entry — the entry price taken is that
bar's Open, the entry time its timestamp. -/
def find_entry (rp : ℚ) (startT endT : Nat) : List Bar → Option (ℚ × Nat)
  | [] => none
  | b :: rest =>
    if endT < b.ts then none
    else if startT < b.ts ∧ rp < b.Close then some (b.Open, b.ts)
    else find_entry rp startT endT rest

/-- One backtested session under the fixed SL/TP policy of `run_backtest`:
find the entry on the trigger bars, derive the stop/target from the recorded
entry price, resolve the exit over the day's bars strictly after the entry
time, and return the signed profit `(exit - entry) * qty` (0 with no entry or
no post-entry bars). -/
def backtest_session_profit_fixed (rp qty sl_pct tp_pct : ℚ) (startT endT : Nat)
    (day_bars trig_bars : List Bar) : ℚ :=
  match find_entry rp startT endT trig_bars with
  | none => 0
  | some (entry_price, entry_time) =>
    match fixed_sl_tp_exit (entry_price * (1 - sl_pct / 100))
        (entry_price * (1 + tp_pct / 100))
        (day_bars.filter (fun b => decide (entry_time < b.ts))) with
    | some x => (x - entry_price) * qty
    | none => 0

/-- Counterexample to C6 as stated: a trigger bar with Open 100 and Close 105
crosses the reversal point 104, yet the recorded entry price is 100, the
bar's Open — not the Close 105 carried by the live entry signal — and the
session profit is computed from that Open (the take-profit lands at
`100 * 1.04 = 104`, giving profit 4, not the `109.2 - 105 = 4.2` the Close
would give). -/
theorem backtest_entry_price_cex :
    find_entry 104 5 20 [⟨10, 100, 106, 99, 105, 0⟩] = some (100, 10) ∧
    (100 : ℚ) ≠ 105 ∧
    backtest_session_profit_fixed 104 1 3 4 5 20
      [⟨10, 100, 106, 99, 105, 0⟩, ⟨11, 104, 200, 103, 110, 0⟩]
      [⟨10, 100, 106, 99, 105, 0⟩] = 4 ∧
    (4 : ℚ) ≠ (1092 / 10 - 105) * 1 := by
  refine ⟨by decide, by decide, ?_, by norm_num⟩
  have hfe : find_entry 104 5 20 [⟨10, 100, 106, 99, 105, 0⟩] = some (100, 10) := by
    decide
  unfold backtest_session_profit_fixed
  rw [hfe]
  have hfil : List.filter (fun b => decide ((10 : Nat) < b.ts))
      [(⟨10, 100, 106, 99, 105, 0⟩ : Bar), ⟨11, 104, 200, 103, 110, 0⟩] =
      [⟨11, 104, 200, 103, 110, 0⟩] := by decide
  have hsl : (100 : ℚ) * (1 - 3 / 100) = 97 := by norm_num
  have htp : (100 : ℚ) * (1 + 4 / 100) = 104 := by norm_num
  have hexit : fixed_sl_tp_exit 97 104 [(⟨11, 104, 200, 103, 110, 0⟩ : Bar)] =
      some 104 := by decide
  simp only [hfil, hsl, htp, hexit]
  norm_num

/-- C6 (amended): in the backtest replay, the entry price used to compute the
per-trade signed profit `(exit - entry) * qty` is the Open of the
trigger-timeframe bar whose close strictly exceeded the reversal point (not
that close itself). -/
theorem backtest_entry_is_open (rp : ℚ) (startT endT : Nat) (trig_bars : List Bar)
    (p : ℚ) (t : Nat)
    (hfound : find_entry rp startT endT trig_bars = some (p, t)) :
    (∃ b ∈ trig_bars, p = b.Open ∧ t = b.ts ∧ rp < b.Close ∧ startT < b.ts) ∧
    ∀ qty sl_pct tp_pct : ℚ, ∀ day_bars : List Bar, ∀ x : ℚ,
      fixed_sl_tp_exit (p * (1 - sl_pct / 100)) (p * (1 + tp_pct / 100))
          (day_bars.filter (fun b => decide (t < b.ts))) = some x →
        backtest_session_profit_fixed rp qty sl_pct tp_pct startT endT
          day_bars trig_bars = (x - p) * qty := by
  constructor
  · induction trig_bars with
    | nil => exact absurd hfound (by simp [find_entry])
    | cons b rest ih =>
      unfold find_entry at hfound
      by_cases hend : endT < b.ts
      · rw [if_pos hend] at hfound
        exact Option.noConfusion hfound
      · rw [if_neg hend] at hfound
        by_cases hcross : startT < b.ts ∧ rp < b.Close
        · rw [if_pos hcross] at hfound
          simp only [Option.some.injEq, Prod.mk.injEq] at hfound
          exact ⟨b, List.mem_cons_self b rest, hfound.1.symm, hfound.2.symm,
                 hcross.2, hcross.1⟩
        · rw [if_neg hcross] at hfound
          rcases ih hfound with ⟨c, hc, hrest⟩
          exact ⟨c, List.mem_cons_of_mem b hc, hrest⟩
  · intro qty sl_pct tp_pct day_bars x hexit
    unfold backtest_session_profit_fixed
    rw [hfound]
    simp only [hexit]

/-- Witness for C6 (amended): on the concrete trigger bar of the
counterexample, the found entry is the bar's Open (100 ≠ the Close 105), and
the fixed-policy profit of the session is `(104 - 100) * 1`. -/
theorem backtest_entry_is_open_witness :
    find_entry 104 5 20 [⟨10, 100, 106, 99, 105, 0⟩] = some (100, 10) ∧
    ((∃ b ∈ [(⟨10, 100, 106, 99, 105, 0⟩ : Bar)],
        (100 : ℚ) = b.Open ∧ 10 = b.ts ∧ (104 : ℚ) < b.Close ∧ 5 < b.ts) ∧
     ∀ qty sl_pct tp_pct : ℚ, ∀ day_bars : List Bar, ∀ x : ℚ,
       fixed_sl_tp_exit (100 * (1 - sl_pct / 100)) (100 * (1 + tp_pct / 100))
           (day_bars.filter (fun b => decide (10 < b.ts))) = some x →
         backtest_session_profit_fixed 104 qty sl_pct tp_pct 5 20
           day_bars [⟨10, 100, 106, 99, 105, 0⟩] = (x - 100) * qty) :=
  ⟨by decide,
   backtest_entry_is_open 104 5 20 [⟨10, 100, 106, 99, 105, 0⟩] 100 10 (by decide)⟩

/-- The aggregate counters of `run_backtest`. -/
structure BacktestStats where
  total_profit : ℚ
  wins : Nat
  losses : Nat
  gross_profit : ℚ
  gross_loss : ℚ
  trades : List ℚ
deriving Repr, DecidableEq

/-- The per-session accounting step of `run_backtest`: only a strictly
non-zero profit is appended to the trades list and counted — a positive one
as a win into gross profit, a non-positive one as a loss into gross loss. -/
def record_trade (st : BacktestStats) (profit : ℚ) : BacktestStats :=
  if profit ≠ 0 then
    { total_profit := st.total_profit + profit,
      wins := if 0 < profit then st.wins + 1 else st.wins,
      losses := if 0 < profit then st.losses else st.losses + 1,
      gross_profit := if 0 < profit then st.gross_profit + profit else st.gross_profit,
      gross_loss := if 0 < profit then st.gross_loss else st.gross_loss + |profit|,
      trades := st.trades ++ [profit] }
  else st

/-- The next-session-open exit profit of `run_backtest`: the first bar of the
following session at or after the market-open time gives the exit at its
Open; with no such bar the profit stays 0. -/
def next_session_exit_profit (entry qty : ℚ) (open_ts : Nat)
    (next_day_bars : List Bar) : ℚ :=
  match (next_day_bars.filter (fun b => decide (open_ts ≤ b.ts))).head? with
  | some b => (b.Open - entry) * qty
  | none => 0

/-- C10: a session whose trade resolves to a profit of exactly zero — for
instance an exit at the entry price, or a next-session-open exit with no
next-session bars — is excluded from the trades list and from every
aggregate: `record_trade` leaves the statistics (and hence total_trades =
trades.length, wins, losses, gross profit and gross loss) unchanged. -/
theorem zero_profit_trade_excluded (st : BacktestStats) (entry qty : ℚ)
    (open_ts : Nat) :
    record_trade st 0 = st ∧
    record_trade st ((entry - entry) * qty) = st ∧
    next_session_exit_profit entry qty open_ts [] = 0 ∧
    record_trade st (next_session_exit_profit entry qty open_ts []) = st ∧
    (record_trade st 0).trades.length = st.trades.length := by
  have h0 : record_trade st 0 = st := by
    unfold record_trade
    simp
  have hee : (entry - entry) * qty = 0 := by ring
  have hns : next_session_exit_profit entry qty open_ts [] = 0 := rfl
  exact ⟨h0, by rw [hee, h0], hns, by rw [hns, h0], by rw [h0]⟩

end YoritsukiTrader
